import Mathlib

/-!
Shallow embedding of the expense-tracker action layer.

Sources embedded:
* `db/tables.ts` — the three astro:db tables (Accounts, Categories,
  Transactions), modelled as Lean structures for one row each plus a `DB`
  record holding the three tables as lists (list order = storage/insertion
  order; inserts append at the end).
* `src/actions/index.ts` — the eleven action handlers.  Each handler becomes
  a pure function taking the request context (an optional signed-in user),
  the zod-validated input shape, the clock reading `now` (dates are modelled
  as `Nat` timestamps), a fresh id for inserts, and the current `DB`; it
  returns `Except Err <data> × DB`: the response envelope (`.ok data`
  standing for `{success: true, data}`) or the thrown `ActionError`, paired
  with the possibly-updated store.  zod input validation runs before the
  handler body, so validation failures precede the `requireUser` check,
  mirroring Astro's action pipeline.  JS nullish coalescing `x ?? y` on
  optional values is `nc`; truthiness tests on optional strings
  (`if (input.accountId)`) are `strTruthy`, which is false on both
  `undefined` and the empty string.
-/

/-- The `"expense" | "income" | "transfer"` enum used by zod for
transaction types (and category types). -/
inductive TxnType where
  | expense
  | income
  | transfer
deriving DecidableEq, Repr

/-- One row of the `Accounts` table (db/tables.ts). -/
structure Account where
  id : String
  userId : String
  name : String
  type : Option String
  currency : Option String
  startingBalance : Option Int
  isArchived : Bool
  createdAt : Nat
  updatedAt : Nat
deriving DecidableEq, Repr

/-- One row of the `Categories` table (db/tables.ts). -/
structure Category where
  id : String
  userId : String
  name : String
  type : Option TxnType
  icon : Option String
  parentCategoryId : Option String
  sortOrder : Option Int
  isArchived : Bool
  createdAt : Nat
  updatedAt : Nat
deriving DecidableEq, Repr

/-- One row of the `Transactions` table (db/tables.ts). -/
structure Transaction where
  id : String
  userId : String
  accountId : Option String
  categoryId : Option String
  type : TxnType
  amount : Int
  currency : Option String
  transactionDate : Nat
  description : Option String
  transferAccountId : Option String
  createdAt : Nat
  updatedAt : Nat
deriving DecidableEq, Repr

/-- The whole store: the three tables, each a list of rows in storage
order. -/
structure DB where
  accounts : List Account
  categories : List Category
  transactions : List Transaction
deriving DecidableEq, Repr

/-- The signed-in user taken from `context.locals.user`. -/
structure UserCtx where
  id : String
deriving DecidableEq, Repr

/-- The `ActionError` taxonomy thrown by the handlers, plus the error zod
raises when input validation fails (before the handler body runs). -/
inductive Err where
  | unauthorized (msg : String)
  | notFound (msg : String)
  | validationError
deriving DecidableEq, Repr

/-- `requireUser` (src/actions/index.ts, lines 6–18): extract the caller
from the request context, throwing `UNAUTHORIZED` when absent. -/
def requireUser : Option UserCtx → Except Err UserCtx
  | none => .error (.unauthorized "You must be signed in to perform this action.")
  | some u => .ok u

/-- JS nullish coalescing `x ?? y` where both sides are optional. -/
def nc {α : Type} : Option α → Option α → Option α
  | some v, _ => some v
  | none, y => y

/-- JS truthiness of an optional string: `undefined` and `""` are falsy,
every other string is truthy. -/
def strTruthy : Option String → Bool
  | none => false
  | some s => !(s == "")

/-- The drizzle condition `and(eq(Accounts.id, id), eq(Accounts.userId, userId))`. -/
def accountMatches (i u : String) (a : Account) : Bool :=
  a.id == i && a.userId == u

/-- The drizzle condition for Categories, by id and userId. -/
def categoryMatches (i u : String) (c : Category) : Bool :=
  c.id == i && c.userId == u

/-- The drizzle condition for Transactions, by id and userId. -/
def transactionMatches (i u : String) (t : Transaction) : Bool :=
  t.id == i && t.userId == u

/-- `getAccountForUser` (lines 20–27): select the first row matching id and
userId; absent rows give `none` (the source's `account ?? null`). -/
def getAccountForUser (i u : String) (s : DB) : Option Account :=
  (s.accounts.filter (accountMatches i u)).head?

/-- `getCategoryForUser` (lines 29–36). -/
def getCategoryForUser (i u : String) (s : DB) : Option Category :=
  (s.categories.filter (categoryMatches i u)).head?

/-- `getTransactionForUser` (lines 38–45). -/
def getTransactionForUser (i u : String) (s : DB) : Option Transaction :=
  (s.transactions.filter (transactionMatches i u)).head?

/-- Input of `createAccount`: name required (min length 1), the rest
optional. -/
structure CreateAccountInput where
  name : String
  type : Option String
  currency : Option String
  startingBalance : Option Int
deriving DecidableEq, Repr

/-- Input of `updateAccount`: id required, any subset of mutable fields. -/
structure UpdateAccountInput where
  id : String
  name : Option String
  type : Option String
  currency : Option String
  startingBalance : Option Int
  isArchived : Option Bool
deriving DecidableEq, Repr

/-- Input of the archive and delete actions: just an id. -/
structure IdInput where
  id : String
deriving DecidableEq, Repr

/-- Input of `listAccounts` / `listCategories`, after zod has applied the
`default(false)`. -/
structure ListArchivedInput where
  includeArchived : Bool
deriving DecidableEq, Repr

/-- zod check for `createAccount`: `name: z.string().min(1)`. -/
def validCreateAccount (inp : CreateAccountInput) : Bool :=
  !(inp.name == "")

/-- zod check for `updateAccount`: `name: z.string().min(1).optional()`. -/
def validUpdateAccount (inp : UpdateAccountInput) : Bool :=
  match inp.name with
  | some n => !(n == "")
  | none => true

/-- The generic list envelope `{items, total}` of the list actions. -/
structure ListOut (α : Type) where
  items : List α
  total : Nat
deriving DecidableEq, Repr

/-- The paginated envelope `{items, total, page, pageSize}` of
`listTransactions`. -/
structure PageOut (α : Type) where
  items : List α
  total : Nat
  page : Nat
  pageSize : Nat
deriving DecidableEq, Repr

/-- `createAccount` (lines 48–75): require the user, build the row with a
fresh id and `now` timestamps, insert it, return it. -/
def createAccount (ctx : Option UserCtx) (inp : CreateAccountInput)
    (freshId : String) (now : Nat) (s : DB) : Except Err Account × DB :=
  if !(validCreateAccount inp) then (.error .validationError, s)
  else
    match requireUser ctx with
    | .error e => (.error e, s)
    | .ok user =>
      let account : Account :=
        { id := freshId, userId := user.id, name := inp.name, type := inp.type,
          currency := inp.currency, startingBalance := inp.startingBalance,
          isArchived := false, createdAt := now, updatedAt := now }
      (.ok account, { s with accounts := s.accounts ++ [account] })

/-- The `set({...})` payload of `updateAccount` (lines 100–107), applied to
one matching row `a`: every listed column is overwritten with
`input.x ?? account.x` computed from the fetched row `r`; columns not in the
set (id, userId, createdAt) keep the row's values. -/
def applyAccountSet (r : Account) (inp : UpdateAccountInput) (now : Nat)
    (a : Account) : Account :=
  { a with
    name := inp.name.getD r.name,
    type := nc inp.type r.type,
    currency := nc inp.currency r.currency,
    startingBalance := nc inp.startingBalance r.startingBalance,
    isArchived := inp.isArchived.getD r.isArchived,
    updatedAt := now }

/-- The response row of `updateAccount` (lines 110–114): the JS spread
`{...account, ...input, updatedAt: now}`.  Over the wire, absent optional
keys are missing from `input`, so per field the spread takes the input value
when present and the fetched row's value otherwise; `id` comes from the
input. -/
def spreadAccount (r : Account) (inp : UpdateAccountInput) (now : Nat) :
    Account :=
  { id := inp.id, userId := r.userId,
    name := inp.name.getD r.name,
    type := nc inp.type r.type,
    currency := nc inp.currency r.currency,
    startingBalance := nc inp.startingBalance r.startingBalance,
    isArchived := inp.isArchived.getD r.isArchived,
    createdAt := r.createdAt, updatedAt := now }

/-- `updateAccount` (lines 77–118). -/
def updateAccount (ctx : Option UserCtx) (inp : UpdateAccountInput)
    (now : Nat) (s : DB) : Except Err Account × DB :=
  if !(validUpdateAccount inp) then (.error .validationError, s)
  else
    match requireUser ctx with
    | .error e => (.error e, s)
    | .ok user =>
      match getAccountForUser inp.id user.id s with
      | none => (.error (.notFound "Account not found."), s)
      | some account =>
        let s' : DB :=
          { s with accounts := s.accounts.map (fun a =>
              if accountMatches inp.id user.id a then
                applyAccountSet account inp now a
              else a) }
        (.ok (spreadAccount account inp now), s')

/-- `archiveAccount` (lines 120–141). -/
def archiveAccount (ctx : Option UserCtx) (inp : IdInput) (now : Nat)
    (s : DB) : Except Err Account × DB :=
  match requireUser ctx with
  | .error e => (.error e, s)
  | .ok user =>
    match getAccountForUser inp.id user.id s with
    | none => (.error (.notFound "Account not found."), s)
    | some account =>
      let s' : DB :=
        { s with accounts := s.accounts.map (fun a =>
            if accountMatches inp.id user.id a then
              { a with isArchived := true, updatedAt := now }
            else a) }
      (.ok { account with isArchived := true, updatedAt := now }, s')

/-- `listAccounts` (lines 143–165). -/
def listAccounts (ctx : Option UserCtx) (inp : ListArchivedInput) (s : DB) :
    Except Err (ListOut Account) × DB :=
  match requireUser ctx with
  | .error e => (.error e, s)
  | .ok user =>
    let rows := s.accounts.filter (fun a =>
      if inp.includeArchived then a.userId == user.id
      else a.userId == user.id && a.isArchived == false)
    (.ok { items := rows, total := rows.length }, s)

/-- Input of `createCategory`. -/
structure CreateCategoryInput where
  name : String
  type : Option TxnType
  icon : Option String
  parentCategoryId : Option String
  sortOrder : Option Int
deriving DecidableEq, Repr

/-- Input of `updateCategory`. -/
structure UpdateCategoryInput where
  id : String
  name : Option String
  type : Option TxnType
  icon : Option String
  parentCategoryId : Option String
  sortOrder : Option Int
  isArchived : Option Bool
deriving DecidableEq, Repr

/-- zod check for `createCategory`: `name: z.string().min(1)` (the enum
check on `type` is carried by the `TxnType` type itself). -/
def validCreateCategory (inp : CreateCategoryInput) : Bool :=
  !(inp.name == "")

/-- zod check for `updateCategory`: `name: z.string().min(1).optional()`. -/
def validUpdateCategory (inp : UpdateCategoryInput) : Bool :=
  match inp.name with
  | some n => !(n == "")
  | none => true

/-- `createCategory` (lines 167–196). -/
def createCategory (ctx : Option UserCtx) (inp : CreateCategoryInput)
    (freshId : String) (now : Nat) (s : DB) : Except Err Category × DB :=
  if !(validCreateCategory inp) then (.error .validationError, s)
  else
    match requireUser ctx with
    | .error e => (.error e, s)
    | .ok user =>
      let category : Category :=
        { id := freshId, userId := user.id, name := inp.name, type := inp.type,
          icon := inp.icon, parentCategoryId := inp.parentCategoryId,
          sortOrder := inp.sortOrder, isArchived := false,
          createdAt := now, updatedAt := now }
      (.ok category, { s with categories := s.categories ++ [category] })

/-- The `set({...})` payload of `updateCategory` (lines 222–230) applied to
one matching row. -/
def applyCategorySet (r : Category) (inp : UpdateCategoryInput) (now : Nat)
    (c : Category) : Category :=
  { c with
    name := inp.name.getD r.name,
    type := nc inp.type r.type,
    icon := nc inp.icon r.icon,
    parentCategoryId := nc inp.parentCategoryId r.parentCategoryId,
    sortOrder := nc inp.sortOrder r.sortOrder,
    isArchived := inp.isArchived.getD r.isArchived,
    updatedAt := now }

/-- The response row of `updateCategory` (lines 233–237): the spread
`{...category, ...input, updatedAt: now}`. -/
def spreadCategory (r : Category) (inp : UpdateCategoryInput) (now : Nat) :
    Category :=
  { id := inp.id, userId := r.userId,
    name := inp.name.getD r.name,
    type := nc inp.type r.type,
    icon := nc inp.icon r.icon,
    parentCategoryId := nc inp.parentCategoryId r.parentCategoryId,
    sortOrder := nc inp.sortOrder r.sortOrder,
    isArchived := inp.isArchived.getD r.isArchived,
    createdAt := r.createdAt, updatedAt := now }

/-- `updateCategory` (lines 198–241). -/
def updateCategory (ctx : Option UserCtx) (inp : UpdateCategoryInput)
    (now : Nat) (s : DB) : Except Err Category × DB :=
  if !(validUpdateCategory inp) then (.error .validationError, s)
  else
    match requireUser ctx with
    | .error e => (.error e, s)
    | .ok user =>
      match getCategoryForUser inp.id user.id s with
      | none => (.error (.notFound "Category not found."), s)
      | some category =>
        let s' : DB :=
          { s with categories := s.categories.map (fun c =>
              if categoryMatches inp.id user.id c then
                applyCategorySet category inp now c
              else c) }
        (.ok (spreadCategory category inp now), s')

/-- `archiveCategory` (lines 243–264). -/
def archiveCategory (ctx : Option UserCtx) (inp : IdInput) (now : Nat)
    (s : DB) : Except Err Category × DB :=
  match requireUser ctx with
  | .error e => (.error e, s)
  | .ok user =>
    match getCategoryForUser inp.id user.id s with
    | none => (.error (.notFound "Category not found."), s)
    | some category =>
      let s' : DB :=
        { s with categories := s.categories.map (fun c =>
            if categoryMatches inp.id user.id c then
              { c with isArchived := true, updatedAt := now }
            else c) }
      (.ok { category with isArchived := true, updatedAt := now }, s')

/-- `listCategories` (lines 266–288). -/
def listCategories (ctx : Option UserCtx) (inp : ListArchivedInput) (s : DB) :
    Except Err (ListOut Category) × DB :=
  match requireUser ctx with
  | .error e => (.error e, s)
  | .ok user =>
    let rows := s.categories.filter (fun c =>
      if inp.includeArchived then c.userId == user.id
      else c.userId == user.id && c.isArchived == false)
    (.ok { items := rows, total := rows.length }, s)

/-- Input of `createTransaction`: type and amount required, the rest
optional. -/
structure CreateTransactionInput where
  accountId : Option String
  categoryId : Option String
  type : TxnType
  amount : Int
  currency : Option String
  transactionDate : Option Nat
  description : Option String
  transferAccountId : Option String
deriving DecidableEq, Repr

/-- Input of `updateTransaction`. -/
structure UpdateTransactionInput where
  id : String
  accountId : Option String
  categoryId : Option String
  type : Option TxnType
  amount : Option Int
  currency : Option String
  transactionDate : Option Nat
  description : Option String
  transferAccountId : Option String
deriving DecidableEq, Repr

/-- Input of `listTransactions`, after zod has applied the page/pageSize
defaults. -/
structure ListTransactionsInput where
  accountId : Option String
  categoryId : Option String
  type : Option TxnType
  page : Nat
  pageSize : Nat
deriving DecidableEq, Repr

/-- zod check for `createTransaction`: `amount: z.number().positive()`. -/
def validCreateTransaction (inp : CreateTransactionInput) : Bool :=
  decide (0 < inp.amount)

/-- zod check for `updateTransaction`:
`amount: z.number().positive().optional()`. -/
def validUpdateTransaction (inp : UpdateTransactionInput) : Bool :=
  match inp.amount with
  | some a => decide (0 < a)
  | none => true

/-- zod check for `listTransactions`: page and pageSize are positive
integers. -/
def validListTransactions (inp : ListTransactionsInput) : Bool :=
  decide (1 ≤ inp.page) && decide (1 ≤ inp.pageSize)

/-- `createTransaction` (lines 290–324).  The source builds the default
`transactionDate` with a second `new Date()` in the same handler tick; both
reads of the clock are modelled by the same `now`. -/
def createTransaction (ctx : Option UserCtx) (inp : CreateTransactionInput)
    (freshId : String) (now : Nat) (s : DB) : Except Err Transaction × DB :=
  if !(validCreateTransaction inp) then (.error .validationError, s)
  else
    match requireUser ctx with
    | .error e => (.error e, s)
    | .ok user =>
      let transaction : Transaction :=
        { id := freshId, userId := user.id,
          accountId := inp.accountId, categoryId := inp.categoryId,
          type := inp.type, amount := inp.amount, currency := inp.currency,
          transactionDate := inp.transactionDate.getD now,
          description := inp.description,
          transferAccountId := inp.transferAccountId,
          createdAt := now, updatedAt := now }
      (.ok transaction,
        { s with transactions := s.transactions ++ [transaction] })

/-- The `set({...})` payload of `updateTransaction` (lines 352–362) applied
to one matching row. -/
def applyTransactionSet (r : Transaction) (inp : UpdateTransactionInput)
    (now : Nat) (t : Transaction) : Transaction :=
  { t with
    accountId := nc inp.accountId r.accountId,
    categoryId := nc inp.categoryId r.categoryId,
    type := inp.type.getD r.type,
    amount := inp.amount.getD r.amount,
    currency := nc inp.currency r.currency,
    transactionDate := inp.transactionDate.getD r.transactionDate,
    description := nc inp.description r.description,
    transferAccountId := nc inp.transferAccountId r.transferAccountId,
    updatedAt := now }

/-- The response row of `updateTransaction` (lines 365–369): the spread
`{...transaction, ...input, updatedAt: now}`. -/
def spreadTransaction (r : Transaction) (inp : UpdateTransactionInput)
    (now : Nat) : Transaction :=
  { id := inp.id, userId := r.userId,
    accountId := nc inp.accountId r.accountId,
    categoryId := nc inp.categoryId r.categoryId,
    type := inp.type.getD r.type,
    amount := inp.amount.getD r.amount,
    currency := nc inp.currency r.currency,
    transactionDate := inp.transactionDate.getD r.transactionDate,
    description := nc inp.description r.description,
    transferAccountId := nc inp.transferAccountId r.transferAccountId,
    createdAt := r.createdAt, updatedAt := now }

/-- `updateTransaction` (lines 326–373). -/
def updateTransaction (ctx : Option UserCtx) (inp : UpdateTransactionInput)
    (now : Nat) (s : DB) : Except Err Transaction × DB :=
  if !(validUpdateTransaction inp) then (.error .validationError, s)
  else
    match requireUser ctx with
    | .error e => (.error e, s)
    | .ok user =>
      match getTransactionForUser inp.id user.id s with
      | none => (.error (.notFound "Transaction not found."), s)
      | some transaction =>
        let s' : DB :=
          { s with transactions := s.transactions.map (fun t =>
              if transactionMatches inp.id user.id t then
                applyTransactionSet transaction inp now t
              else t) }
        (.ok (spreadTransaction transaction inp now), s')

/-- `deleteTransaction` (lines 375–394): hard delete of the scoped row;
the envelope carries no data payload. -/
def deleteTransaction (ctx : Option UserCtx) (inp : IdInput) (s : DB) :
    Except Err Unit × DB :=
  match requireUser ctx with
  | .error e => (.error e, s)
  | .ok user =>
    match getTransactionForUser inp.id user.id s with
    | none => (.error (.notFound "Transaction not found."), s)
    | some _ =>
      let s' : DB :=
        { s with transactions := s.transactions.filter (fun t =>
            !(transactionMatches inp.id user.id t)) }
      (.ok (), s')

/-- `listTransactions` (lines 396–441): build the conjunctive filter list
starting from userId, adding each truthy filter; drizzle's
`filters.length === 1 ? filters[0] : and(...filters)` is the conjunction of
the list in both cases, modelled by `List.all`.  SQL applies the offset
before the limit. -/
def listTransactions (ctx : Option UserCtx) (inp : ListTransactionsInput)
    (s : DB) : Except Err (PageOut Transaction) × DB :=
  if !(validListTransactions inp) then (.error .validationError, s)
  else
    match requireUser ctx with
    | .error e => (.error e, s)
    | .ok user =>
      let offset := (inp.page - 1) * inp.pageSize
      let filters : List (Transaction → Bool) :=
        [fun t => t.userId == user.id]
      let filters :=
        if strTruthy inp.accountId then
          filters ++ [fun t => t.accountId == inp.accountId]
        else filters
      let filters :=
        if strTruthy inp.categoryId then
          filters ++ [fun t => t.categoryId == inp.categoryId]
        else filters
      let filters :=
        match inp.type with
        | some ty => filters ++ [fun (t : Transaction) => decide (t.type = ty)]
        | none => filters
      let whereClause : Transaction → Bool := fun t => filters.all (fun f => f t)
      let rows := ((s.transactions.filter whereClause).drop offset).take inp.pageSize
      (.ok { items := rows, total := rows.length,
             page := inp.page, pageSize := inp.pageSize }, s)

/-- The exposed action surface: one constructor per exported action, with
the request context and input it is invoked with (plus the fresh id / clock
reading supplied by the environment). -/
inductive Act where
  | createAccount (ctx : Option UserCtx) (inp : CreateAccountInput) (freshId : String) (now : Nat)
  | updateAccount (ctx : Option UserCtx) (inp : UpdateAccountInput) (now : Nat)
  | archiveAccount (ctx : Option UserCtx) (inp : IdInput) (now : Nat)
  | listAccounts (ctx : Option UserCtx) (inp : ListArchivedInput)
  | createCategory (ctx : Option UserCtx) (inp : CreateCategoryInput) (freshId : String) (now : Nat)
  | updateCategory (ctx : Option UserCtx) (inp : UpdateCategoryInput) (now : Nat)
  | archiveCategory (ctx : Option UserCtx) (inp : IdInput) (now : Nat)
  | listCategories (ctx : Option UserCtx) (inp : ListArchivedInput)
  | createTransaction (ctx : Option UserCtx) (inp : CreateTransactionInput) (freshId : String) (now : Nat)
  | updateTransaction (ctx : Option UserCtx) (inp : UpdateTransactionInput) (now : Nat)
  | deleteTransaction (ctx : Option UserCtx) (inp : IdInput)
  | listTransactions (ctx : Option UserCtx) (inp : ListTransactionsInput)

/-- The store after running one action (the response is discarded). -/
def stepAct : Act → DB → DB
  | .createAccount c i f n, s => (createAccount c i f n s).2
  | .updateAccount c i n, s => (updateAccount c i n s).2
  | .archiveAccount c i n, s => (archiveAccount c i n s).2
  | .listAccounts c i, s => (listAccounts c i s).2
  | .createCategory c i f n, s => (createCategory c i f n s).2
  | .updateCategory c i n, s => (updateCategory c i n s).2
  | .archiveCategory c i n, s => (archiveCategory c i n s).2
  | .listCategories c i, s => (listCategories c i s).2
  | .createTransaction c i f n, s => (createTransaction c i f n s).2
  | .updateTransaction c i n, s => (updateTransaction c i n s).2
  | .deleteTransaction c i, s => (deleteTransaction c i s).2
  | .listTransactions c i, s => (listTransactions c i s).2

/-- Run a sequence of exposed actions left to right. -/
def runActs (acts : List Act) (s : DB) : DB :=
  acts.foldl (fun s a => stepAct a s) s

/-- Well-formedness the schema guarantees: `id` is the primary key of each
table, so ids are pairwise distinct within a table. -/
def DB.wf (s : DB) : Prop :=
  s.accounts.Pairwise (fun a b => a.id ≠ b.id) ∧
  s.categories.Pairwise (fun a b => a.id ≠ b.id) ∧
  s.transactions.Pairwise (fun a b => a.id ≠ b.id)

/-- Every account row with this id is archived. -/
def archInvA (i : String) (s : DB) : Prop :=
  ∀ a ∈ s.accounts, a.id = i → a.isArchived = true

/-- Every category row with this id is archived. -/
def archInvC (i : String) (s : DB) : Prop :=
  ∀ c ∈ s.categories, c.id = i → c.isArchived = true

/-- Actions that do not explicitly un-archive the account with id `i` (and
do not mint a fresh account under that id): an `updateAccount` targeting `i`
must not supply `isArchived: false`, and a `createAccount` must not reuse
`i` as the fresh id.  Every other action qualifies unconditionally. -/
def actOkA (i : String) : Act → Prop
  | .createAccount _ _ freshId _ => freshId ≠ i
  | .updateAccount _ inp _ => inp.id = i → inp.isArchived ≠ some false
  | _ => True

/-- Same for the category with id `i`. -/
def actOkC (i : String) : Act → Prop
  | .createCategory _ _ freshId _ => freshId ≠ i
  | .updateCategory _ inp _ => inp.id = i → inp.isArchived ≠ some false
  | _ => True

/-- The row predicate the spec describes for `listTransactions`: the
conjunction of the ownerId condition with each provided (truthy) filter,
written flat rather than as the handler's growing filter list. -/
def txnMatchesSpec (uid : String) (inp : ListTransactionsInput)
    (t : Transaction) : Bool :=
  t.userId == uid
  && ((if strTruthy inp.accountId then t.accountId == inp.accountId else true)
  && ((if strTruthy inp.categoryId then t.categoryId == inp.categoryId else true)
  && (match inp.type with
      | some ty => decide (t.type = ty)
      | none => true)))

/-- A sample account owned by alice. -/
def sampleAccount : Account :=
  { id := "a1", userId := "alice", name := "Cash", type := none,
    currency := none, startingBalance := none, isArchived := false,
    createdAt := 0, updatedAt := 0 }

/-- A sample archived account owned by alice. -/
def archAcct : Account :=
  { sampleAccount with isArchived := true }

/-- A sample category owned by alice. -/
def sampleCategory : Category :=
  { id := "c1", userId := "alice", name := "Rent", type := none,
    icon := none, parentCategoryId := none, sortOrder := none,
    isArchived := false, createdAt := 0, updatedAt := 0 }

/-- A sample archived category owned by alice. -/
def archCat : Category :=
  { sampleCategory with isArchived := true }

/-- A sample transaction owned by alice. -/
def txnA : Transaction :=
  { id := "t1", userId := "alice", accountId := none, categoryId := none,
    type := .expense, amount := 5, currency := none, transactionDate := 0,
    description := none, transferAccountId := none,
    createdAt := 0, updatedAt := 0 }

/-- A second sample transaction owned by alice. -/
def txnB : Transaction :=
  { txnA with id := "t2", amount := 7 }

/-- A sample store: one row per table, all owned by alice. -/
def sampleDB : DB :=
  { accounts := [sampleAccount], categories := [sampleCategory],
    transactions := [txnA] }

/-- A store whose account and category rows are archived. -/
def archDB : DB :=
  { accounts := [archAcct], categories := [archCat], transactions := [] }

/-- A store with two transactions owned by alice. -/
def twoTxnDB : DB :=
  { accounts := [], categories := [], transactions := [txnA, txnB] }

/-! ### Generic list helpers -/

theorem head?_filter_eq_some {α : Type} {p : α → Bool} {l : List α} {r : α}
    (h : (l.filter p).head? = some r) : r ∈ l ∧ p r = true := by
  have hmem : r ∈ l.filter p := by
    cases hf : l.filter p with
    | nil => rw [hf] at h; cases h
    | cons x xs =>
      rw [hf] at h
      cases h
      exact List.mem_cons_self _ _
  exact List.mem_filter.1 hmem

theorem head?_filter_eq_none {α : Type} {p : α → Bool} {l : List α}
    (h : ∀ x ∈ l, p x = false) : (l.filter p).head? = none := by
  rw [List.head?_eq_none_iff, List.filter_eq_nil_iff]
  intro a ha
  simp [h a ha]

theorem key_unique {α κ : Type} (key : α → κ) {l : List α}
    (hpw : l.Pairwise fun a b => key a ≠ key b) {r x : α}
    (hr : r ∈ l) (hx : x ∈ l) (hk : key x = key r) : x = r := by
  induction l with
  | nil => cases hr
  | cons a t ih =>
    rcases List.pairwise_cons.1 hpw with ⟨ha, ht⟩
    rcases List.mem_cons.1 hr with hr1 | hr2 <;> rcases List.mem_cons.1 hx with hx1 | hx2
    · rw [hx1, hr1]
    · subst hr1; exact absurd hk.symm (ha x hx2)
    · subst hx1; exact absurd hk (ha r hr2)
    · exact ih ht hr2 hx2

theorem filter_map_if {α : Type} (p : α → Bool) (f : α → α)
    (hpf : ∀ a, p a = true → p (f a) = true) (l : List α) :
    (l.map fun a => if p a then f a else a).filter p = (l.filter p).map f := by
  induction l with
  | nil => rfl
  | cons a t ih =>
    by_cases hpa : p a = true
    · simp only [List.map_cons, if_pos hpa, List.filter_cons, hpa, hpf a hpa, if_true, ih]
    · have hpa2 : p a = false := by simpa using hpa
      simp only [List.map_cons, hpa2, if_false, List.filter_cons, Bool.false_eq_true, ih]

theorem mem_map_if_of_neg {α : Type} {p : α → Bool} {f : α → α} {l : List α}
    {a : α} (ha : a ∈ l) (hpa : p a = false) :
    a ∈ l.map fun x => if p x then f x else x := by
  have h := List.mem_map_of_mem (fun x => if p x then f x else x) ha
  simpa [hpa] using h

/-! ### Per-entity consequences of the row predicates -/

theorem accountMatches_applyAccountSet (i u : String) (r : Account)
    (inp : UpdateAccountInput) (now : Nat) (a : Account) :
    accountMatches i u (applyAccountSet r inp now a) = accountMatches i u a := rfl

theorem accountMatches_archiveSet (i u : String) (now : Nat) (a : Account) :
    accountMatches i u { a with isArchived := true, updatedAt := now } =
      accountMatches i u a := rfl

theorem categoryMatches_applyCategorySet (i u : String) (r : Category)
    (inp : UpdateCategoryInput) (now : Nat) (c : Category) :
    categoryMatches i u (applyCategorySet r inp now c) = categoryMatches i u c := rfl

theorem categoryMatches_archiveSet (i u : String) (now : Nat) (c : Category) :
    categoryMatches i u { c with isArchived := true, updatedAt := now } =
      categoryMatches i u c := rfl

theorem transactionMatches_applyTransactionSet (i u : String) (r : Transaction)
    (inp : UpdateTransactionInput) (now : Nat) (t : Transaction) :
    transactionMatches i u (applyTransactionSet r inp now t) =
      transactionMatches i u t := rfl

theorem getAccountForUser_map_if (i u : String) (g : Account → Account)
    (hg : ∀ a, accountMatches i u a = true → accountMatches i u (g a) = true)
    (s : DB) :
    getAccountForUser i u
      { s with accounts := s.accounts.map fun a =>
          if accountMatches i u a then g a else a } =
      (getAccountForUser i u s).map g := by
  show ((s.accounts.map fun a => if accountMatches i u a then g a else a).filter
      (accountMatches i u)).head? = ((s.accounts.filter (accountMatches i u)).head?).map g
  rw [filter_map_if (accountMatches i u) g hg s.accounts, List.head?_map]

theorem getCategoryForUser_map_if (i u : String) (g : Category → Category)
    (hg : ∀ c, categoryMatches i u c = true → categoryMatches i u (g c) = true)
    (s : DB) :
    getCategoryForUser i u
      { s with categories := s.categories.map fun c =>
          if categoryMatches i u c then g c else c } =
      (getCategoryForUser i u s).map g := by
  show ((s.categories.map fun c => if categoryMatches i u c then g c else c).filter
      (categoryMatches i u)).head? = ((s.categories.filter (categoryMatches i u)).head?).map g
  rw [filter_map_if (categoryMatches i u) g hg s.categories, List.head?_map]

theorem getTransactionForUser_map_if (i u : String) (g : Transaction → Transaction)
    (hg : ∀ t, transactionMatches i u t = true → transactionMatches i u (g t) = true)
    (s : DB) :
    getTransactionForUser i u
      { s with transactions := s.transactions.map fun t =>
          if transactionMatches i u t then g t else t } =
      (getTransactionForUser i u s).map g := by
  show ((s.transactions.map fun t => if transactionMatches i u t then g t else t).filter
      (transactionMatches i u)).head? =
      ((s.transactions.filter (transactionMatches i u)).head?).map g
  rw [filter_map_if (transactionMatches i u) g hg s.transactions, List.head?_map]

theorem lookup_none_account {s : DB} (hwf : s.wf) {r : Account}
    (hr : r ∈ s.accounts) {B : String} (hB : r.userId ≠ B) :
    getAccountForUser r.id B s = none := by
  apply head?_filter_eq_none
  intro x hx
  by_contra hpx
  have hpx2 : accountMatches r.id B x = true := by
    cases hne : accountMatches r.id B x
    · exact absurd hne hpx
    · rfl
  have hconj : x.id = r.id ∧ x.userId = B := by
    simpa [accountMatches] using hpx2
  have hxr : x = r := key_unique Account.id hwf.1 hr hx hconj.1
  rw [hxr] at hconj
  exact hB hconj.2

theorem lookup_none_category {s : DB} (hwf : s.wf) {r : Category}
    (hr : r ∈ s.categories) {B : String} (hB : r.userId ≠ B) :
    getCategoryForUser r.id B s = none := by
  apply head?_filter_eq_none
  intro x hx
  by_contra hpx
  have hpx2 : categoryMatches r.id B x = true := by
    cases hne : categoryMatches r.id B x
    · exact absurd hne hpx
    · rfl
  have hconj : x.id = r.id ∧ x.userId = B := by
    simpa [categoryMatches] using hpx2
  have hxr : x = r := key_unique Category.id hwf.2.1 hr hx hconj.1
  rw [hxr] at hconj
  exact hB hconj.2

theorem lookup_none_transaction {s : DB} (hwf : s.wf) {r : Transaction}
    (hr : r ∈ s.transactions) {B : String} (hB : r.userId ≠ B) :
    getTransactionForUser r.id B s = none := by
  apply head?_filter_eq_none
  intro x hx
  by_contra hpx
  have hpx2 : transactionMatches r.id B x = true := by
    cases hne : transactionMatches r.id B x
    · exact absurd hne hpx
    · rfl
  have hconj : x.id = r.id ∧ x.userId = B := by
    simpa [transactionMatches] using hpx2
  have hxr : x = r := key_unique Transaction.id hwf.2.2 hr hx hconj.1
  rw [hxr] at hconj
  exact hB hconj.2

/-! ### Which tables each action can touch -/

theorem snd_listAccounts (c : Option UserCtx) (inp : ListArchivedInput) (s : DB) :
    (listAccounts c inp s).2 = s := by
  rcases c with _ | u <;> rfl

theorem snd_listCategories (c : Option UserCtx) (inp : ListArchivedInput) (s : DB) :
    (listCategories c inp s).2 = s := by
  rcases c with _ | u <;> rfl

theorem snd_listTransactions (c : Option UserCtx) (inp : ListTransactionsInput) (s : DB) :
    (listTransactions c inp s).2 = s := by
  cases hv : validListTransactions inp
  · simp [listTransactions, hv]
  · rcases c with _ | u <;> simp [listTransactions, hv, requireUser]

theorem accounts_createCategory (c : Option UserCtx) (inp : CreateCategoryInput)
    (f : String) (n : Nat) (s : DB) :
    ((createCategory c inp f n s).2).accounts = s.accounts := by
  cases hv : validCreateCategory inp
  · simp [createCategory, hv]
  · rcases c with _ | u <;> simp [createCategory, hv, requireUser]

theorem accounts_updateCategory (c : Option UserCtx) (inp : UpdateCategoryInput)
    (n : Nat) (s : DB) :
    ((updateCategory c inp n s).2).accounts = s.accounts := by
  cases hv : validUpdateCategory inp
  · simp [updateCategory, hv]
  · rcases c with _ | u
    · simp [updateCategory, hv, requireUser]
    · cases hl : getCategoryForUser inp.id u.id s <;>
        simp [updateCategory, hv, requireUser, hl]

theorem accounts_archiveCategory (c : Option UserCtx) (inp : IdInput)
    (n : Nat) (s : DB) :
    ((archiveCategory c inp n s).2).accounts = s.accounts := by
  rcases c with _ | u
  · rfl
  · cases hl : getCategoryForUser inp.id u.id s <;>
      simp [archiveCategory, requireUser, hl]

theorem accounts_createTransaction (c : Option UserCtx)
    (inp : CreateTransactionInput) (f : String) (n : Nat) (s : DB) :
    ((createTransaction c inp f n s).2).accounts = s.accounts := by
  cases hv : validCreateTransaction inp
  · simp [createTransaction, hv]
  · rcases c with _ | u <;> simp [createTransaction, hv, requireUser]

theorem accounts_updateTransaction (c : Option UserCtx)
    (inp : UpdateTransactionInput) (n : Nat) (s : DB) :
    ((updateTransaction c inp n s).2).accounts = s.accounts := by
  cases hv : validUpdateTransaction inp
  · simp [updateTransaction, hv]
  · rcases c with _ | u
    · simp [updateTransaction, hv, requireUser]
    · cases hl : getTransactionForUser inp.id u.id s <;>
        simp [updateTransaction, hv, requireUser, hl]

theorem accounts_deleteTransaction (c : Option UserCtx) (inp : IdInput) (s : DB) :
    ((deleteTransaction c inp s).2).accounts = s.accounts := by
  rcases c with _ | u
  · rfl
  · cases hl : getTransactionForUser inp.id u.id s <;>
      simp [deleteTransaction, requireUser, hl]

theorem categories_createAccount (c : Option UserCtx) (inp : CreateAccountInput)
    (f : String) (n : Nat) (s : DB) :
    ((createAccount c inp f n s).2).categories = s.categories := by
  cases hv : validCreateAccount inp
  · simp [createAccount, hv]
  · rcases c with _ | u <;> simp [createAccount, hv, requireUser]

theorem categories_updateAccount (c : Option UserCtx) (inp : UpdateAccountInput)
    (n : Nat) (s : DB) :
    ((updateAccount c inp n s).2).categories = s.categories := by
  cases hv : validUpdateAccount inp
  · simp [updateAccount, hv]
  · rcases c with _ | u
    · simp [updateAccount, hv, requireUser]
    · cases hl : getAccountForUser inp.id u.id s <;>
        simp [updateAccount, hv, requireUser, hl]

theorem categories_archiveAccount (c : Option UserCtx) (inp : IdInput)
    (n : Nat) (s : DB) :
    ((archiveAccount c inp n s).2).categories = s.categories := by
  rcases c with _ | u
  · rfl
  · cases hl : getAccountForUser inp.id u.id s <;>
      simp [archiveAccount, requireUser, hl]

theorem categories_createTransaction (c : Option UserCtx)
    (inp : CreateTransactionInput) (f : String) (n : Nat) (s : DB) :
    ((createTransaction c inp f n s).2).categories = s.categories := by
  cases hv : validCreateTransaction inp
  · simp [createTransaction, hv]
  · rcases c with _ | u <;> simp [createTransaction, hv, requireUser]

theorem categories_updateTransaction (c : Option UserCtx)
    (inp : UpdateTransactionInput) (n : Nat) (s : DB) :
    ((updateTransaction c inp n s).2).categories = s.categories := by
  cases hv : validUpdateTransaction inp
  · simp [updateTransaction, hv]
  · rcases c with _ | u
    · simp [updateTransaction, hv, requireUser]
    · cases hl : getTransactionForUser inp.id u.id s <;>
        simp [updateTransaction, hv, requireUser, hl]

theorem categories_deleteTransaction (c : Option UserCtx) (inp : IdInput) (s : DB) :
    ((deleteTransaction c inp s).2).categories = s.categories := by
  rcases c with _ | u
  · rfl
  · cases hl : getTransactionForUser inp.id u.id s <;>
      simp [deleteTransaction, requireUser, hl]

/-! ### Preservation of the archived flag -/

theorem archInvA_createAccount {i : String} (c : Option UserCtx)
    (inp : CreateAccountInput) {f : String} (n : Nat) {s : DB}
    (hf : f ≠ i) (hinv : archInvA i s) :
    archInvA i (createAccount c inp f n s).2 := by
  cases hv : validCreateAccount inp
  · simpa [createAccount, hv] using hinv
  · rcases c with _ | u
    · simpa [createAccount, hv, requireUser] using hinv
    · intro x hx hxid
      have hx2 : x ∈ s.accounts ++
          [({ id := f, userId := u.id, name := inp.name, type := inp.type,
              currency := inp.currency, startingBalance := inp.startingBalance,
              isArchived := false, createdAt := n, updatedAt := n } : Account)] := by
        simpa [createAccount, hv, requireUser] using hx
      rcases List.mem_append.1 hx2 with hmem | hnew
      · exact hinv x hmem hxid
      · rw [List.mem_singleton.1 hnew] at hxid
        exact absurd hxid hf

theorem archInvA_updateAccount {i : String} (c : Option UserCtx)
    {inp : UpdateAccountInput} (n : Nat) {s : DB}
    (hok : inp.id = i → inp.isArchived ≠ some false) (hinv : archInvA i s) :
    archInvA i (updateAccount c inp n s).2 := by
  cases hv : validUpdateAccount inp
  · simpa [updateAccount, hv] using hinv
  · rcases c with _ | u
    · simpa [updateAccount, hv, requireUser] using hinv
    · cases hl : getAccountForUser inp.id u.id s with
      | none => simpa [updateAccount, hv, requireUser, hl] using hinv
      | some r =>
        intro x hx hxid
        have hx2 : x ∈ s.accounts.map fun a =>
            if accountMatches inp.id u.id a then applyAccountSet r inp n a else a := by
          simpa [updateAccount, hv, requireUser, hl] using hx
        rcases List.mem_map.1 hx2 with ⟨a, ha, hax⟩
        by_cases hp : accountMatches inp.id u.id a = true
        · rw [if_pos hp] at hax
          have haid : a.id = inp.id := by
            have := hp
            simp only [accountMatches, Bool.and_eq_true, beq_iff_eq] at this
            exact this.1
          have hxa : x.id = a.id := by rw [← hax]; rfl
          have hii : inp.id = i := by rw [← haid, ← hxa, hxid]
          have hnb := hok hii
          have hxarch : x.isArchived = inp.isArchived.getD r.isArchived := by
            rw [← hax]; rfl
          cases hb : inp.isArchived with
          | none =>
            rcases head?_filter_eq_some hl with ⟨hrmem, hrp⟩
            have hrid : r.id = inp.id := by
              simp only [accountMatches, Bool.and_eq_true, beq_iff_eq] at hrp
              exact hrp.1
            have := hinv r hrmem (by rw [hrid, hii])
            rw [hxarch, hb, Option.getD_none, this]
          | some b =>
            cases b with
            | false => exact absurd hb hnb
            | true => rw [hxarch, hb]; rfl
        · have hp2 : accountMatches inp.id u.id a = false := by
            cases hq : accountMatches inp.id u.id a
            · rfl
            · exact absurd hq hp
          rw [if_neg (by simp [hp2])] at hax
          rw [← hax] at hxid ⊢
          exact hinv a ha hxid

theorem archInvA_archiveAccount {i : String} (c : Option UserCtx)
    (inp : IdInput) (n : Nat) {s : DB} (hinv : archInvA i s) :
    archInvA i (archiveAccount c inp n s).2 := by
  rcases c with _ | u
  · simpa [archiveAccount, requireUser] using hinv
  · cases hl : getAccountForUser inp.id u.id s with
    | none => simpa [archiveAccount, requireUser, hl] using hinv
    | some r =>
      intro x hx hxid
      have hx2 : x ∈ s.accounts.map fun a =>
          if accountMatches inp.id u.id a then
            { a with isArchived := true, updatedAt := n } else a := by
        simpa [archiveAccount, requireUser, hl] using hx
      rcases List.mem_map.1 hx2 with ⟨a, ha, hax⟩
      by_cases hp : accountMatches inp.id u.id a = true
      · rw [if_pos hp] at hax
        rw [← hax]
      · have hp2 : accountMatches inp.id u.id a = false := by
          cases hq : accountMatches inp.id u.id a
          · rfl
          · exact absurd hq hp
        rw [if_neg (by simp [hp2])] at hax
        rw [← hax] at hxid ⊢
        exact hinv a ha hxid

theorem archInvC_createCategory {i : String} (c : Option UserCtx)
    (inp : CreateCategoryInput) {f : String} (n : Nat) {s : DB}
    (hf : f ≠ i) (hinv : archInvC i s) :
    archInvC i (createCategory c inp f n s).2 := by
  cases hv : validCreateCategory inp
  · simpa [createCategory, hv] using hinv
  · rcases c with _ | u
    · simpa [createCategory, hv, requireUser] using hinv
    · intro x hx hxid
      have hx2 : x ∈ s.categories ++
          [({ id := f, userId := u.id, name := inp.name, type := inp.type,
              icon := inp.icon, parentCategoryId := inp.parentCategoryId,
              sortOrder := inp.sortOrder, isArchived := false,
              createdAt := n, updatedAt := n } : Category)] := by
        simpa [createCategory, hv, requireUser] using hx
      rcases List.mem_append.1 hx2 with hmem | hnew
      · exact hinv x hmem hxid
      · rw [List.mem_singleton.1 hnew] at hxid
        exact absurd hxid hf

theorem archInvC_updateCategory {i : String} (c : Option UserCtx)
    {inp : UpdateCategoryInput} (n : Nat) {s : DB}
    (hok : inp.id = i → inp.isArchived ≠ some false) (hinv : archInvC i s) :
    archInvC i (updateCategory c inp n s).2 := by
  cases hv : validUpdateCategory inp
  · simpa [updateCategory, hv] using hinv
  · rcases c with _ | u
    · simpa [updateCategory, hv, requireUser] using hinv
    · cases hl : getCategoryForUser inp.id u.id s with
      | none => simpa [updateCategory, hv, requireUser, hl] using hinv
      | some r =>
        intro x hx hxid
        have hx2 : x ∈ s.categories.map fun a =>
            if categoryMatches inp.id u.id a then applyCategorySet r inp n a else a := by
          simpa [updateCategory, hv, requireUser, hl] using hx
        rcases List.mem_map.1 hx2 with ⟨a, ha, hax⟩
        by_cases hp : categoryMatches inp.id u.id a = true
        · rw [if_pos hp] at hax
          have haid : a.id = inp.id := by
            have := hp
            simp only [categoryMatches, Bool.and_eq_true, beq_iff_eq] at this
            exact this.1
          have hxa : x.id = a.id := by rw [← hax]; rfl
          have hii : inp.id = i := by rw [← haid, ← hxa, hxid]
          have hnb := hok hii
          have hxarch : x.isArchived = inp.isArchived.getD r.isArchived := by
            rw [← hax]; rfl
          cases hb : inp.isArchived with
          | none =>
            rcases head?_filter_eq_some hl with ⟨hrmem, hrp⟩
            have hrid : r.id = inp.id := by
              simp only [categoryMatches, Bool.and_eq_true, beq_iff_eq] at hrp
              exact hrp.1
            have := hinv r hrmem (by rw [hrid, hii])
            rw [hxarch, hb, Option.getD_none, this]
          | some b =>
            cases b with
            | false => exact absurd hb hnb
            | true => rw [hxarch, hb]; rfl
        · have hp2 : categoryMatches inp.id u.id a = false := by
            cases hq : categoryMatches inp.id u.id a
            · rfl
            · exact absurd hq hp
          rw [if_neg (by simp [hp2])] at hax
          rw [← hax] at hxid ⊢
          exact hinv a ha hxid

theorem archInvC_archiveCategory {i : String} (c : Option UserCtx)
    (inp : IdInput) (n : Nat) {s : DB} (hinv : archInvC i s) :
    archInvC i (archiveCategory c inp n s).2 := by
  rcases c with _ | u
  · simpa [archiveCategory, requireUser] using hinv
  · cases hl : getCategoryForUser inp.id u.id s with
    | none => simpa [archiveCategory, requireUser, hl] using hinv
    | some r =>
      intro x hx hxid
      have hx2 : x ∈ s.categories.map fun a =>
          if categoryMatches inp.id u.id a then
            { a with isArchived := true, updatedAt := n } else a := by
        simpa [archiveCategory, requireUser, hl] using hx
      rcases List.mem_map.1 hx2 with ⟨a, ha, hax⟩
      by_cases hp : categoryMatches inp.id u.id a = true
      · rw [if_pos hp] at hax
        rw [← hax]
      · have hp2 : categoryMatches inp.id u.id a = false := by
          cases hq : categoryMatches inp.id u.id a
          · rfl
          · exact absurd hq hp
        rw [if_neg (by simp [hp2])] at hax
        rw [← hax] at hxid ⊢
        exact hinv a ha hxid

theorem stepAct_archInvA {i : String} {a : Act} (hok : actOkA i a) {s : DB}
    (hinv : archInvA i s) : archInvA i (stepAct a s) := by
  cases a with
  | createAccount c inp f n => exact archInvA_createAccount c inp n hok hinv
  | updateAccount c inp n => exact archInvA_updateAccount c n hok hinv
  | archiveAccount c inp n => exact archInvA_archiveAccount c inp n hinv
  | listAccounts c inp =>
    intro x hx hxid
    rw [show stepAct (Act.listAccounts c inp) s = s from snd_listAccounts c inp s] at hx
    exact hinv x hx hxid
  | createCategory c inp f n =>
    intro x hx hxid
    simp only [stepAct] at hx
    rw [show ((createCategory c inp f n s).2).accounts = s.accounts from
      accounts_createCategory c inp f n s] at hx
    exact hinv x hx hxid
  | updateCategory c inp n =>
    intro x hx hxid
    simp only [stepAct] at hx
    rw [show ((updateCategory c inp n s).2).accounts = s.accounts from
      accounts_updateCategory c inp n s] at hx
    exact hinv x hx hxid
  | archiveCategory c inp n =>
    intro x hx hxid
    simp only [stepAct] at hx
    rw [show ((archiveCategory c inp n s).2).accounts = s.accounts from
      accounts_archiveCategory c inp n s] at hx
    exact hinv x hx hxid
  | listCategories c inp =>
    intro x hx hxid
    rw [show stepAct (Act.listCategories c inp) s = s from snd_listCategories c inp s] at hx
    exact hinv x hx hxid
  | createTransaction c inp f n =>
    intro x hx hxid
    simp only [stepAct] at hx
    rw [show ((createTransaction c inp f n s).2).accounts = s.accounts from
      accounts_createTransaction c inp f n s] at hx
    exact hinv x hx hxid
  | updateTransaction c inp n =>
    intro x hx hxid
    simp only [stepAct] at hx
    rw [show ((updateTransaction c inp n s).2).accounts = s.accounts from
      accounts_updateTransaction c inp n s] at hx
    exact hinv x hx hxid
  | deleteTransaction c inp =>
    intro x hx hxid
    simp only [stepAct] at hx
    rw [show ((deleteTransaction c inp s).2).accounts = s.accounts from
      accounts_deleteTransaction c inp s] at hx
    exact hinv x hx hxid
  | listTransactions c inp =>
    intro x hx hxid
    rw [show stepAct (Act.listTransactions c inp) s = s from snd_listTransactions c inp s] at hx
    exact hinv x hx hxid

theorem stepAct_archInvC {i : String} {a : Act} (hok : actOkC i a) {s : DB}
    (hinv : archInvC i s) : archInvC i (stepAct a s) := by
  cases a with
  | createCategory c inp f n => exact archInvC_createCategory c inp n hok hinv
  | updateCategory c inp n => exact archInvC_updateCategory c n hok hinv
  | archiveCategory c inp n => exact archInvC_archiveCategory c inp n hinv
  | listCategories c inp =>
    intro x hx hxid
    rw [show stepAct (Act.listCategories c inp) s = s from snd_listCategories c inp s] at hx
    exact hinv x hx hxid
  | createAccount c inp f n =>
    intro x hx hxid
    simp only [stepAct] at hx
    rw [show ((createAccount c inp f n s).2).categories = s.categories from
      categories_createAccount c inp f n s] at hx
    exact hinv x hx hxid
  | updateAccount c inp n =>
    intro x hx hxid
    simp only [stepAct] at hx
    rw [show ((updateAccount c inp n s).2).categories = s.categories from
      categories_updateAccount c inp n s] at hx
    exact hinv x hx hxid
  | archiveAccount c inp n =>
    intro x hx hxid
    simp only [stepAct] at hx
    rw [show ((archiveAccount c inp n s).2).categories = s.categories from
      categories_archiveAccount c inp n s] at hx
    exact hinv x hx hxid
  | listAccounts c inp =>
    intro x hx hxid
    rw [show stepAct (Act.listAccounts c inp) s = s from snd_listAccounts c inp s] at hx
    exact hinv x hx hxid
  | createTransaction c inp f n =>
    intro x hx hxid
    simp only [stepAct] at hx
    rw [show ((createTransaction c inp f n s).2).categories = s.categories from
      categories_createTransaction c inp f n s] at hx
    exact hinv x hx hxid
  | updateTransaction c inp n =>
    intro x hx hxid
    simp only [stepAct] at hx
    rw [show ((updateTransaction c inp n s).2).categories = s.categories from
      categories_updateTransaction c inp n s] at hx
    exact hinv x hx hxid
  | deleteTransaction c inp =>
    intro x hx hxid
    simp only [stepAct] at hx
    rw [show ((deleteTransaction c inp s).2).categories = s.categories from
      categories_deleteTransaction c inp s] at hx
    exact hinv x hx hxid
  | listTransactions c inp =>
    intro x hx hxid
    rw [show stepAct (Act.listTransactions c inp) s = s from snd_listTransactions c inp s] at hx
    exact hinv x hx hxid

/-! ### The claims -/

/-- Claim C1: for every entity (Account, Category, Transaction) and every
row belonging to owner A, an update, archive, delete, or single-row lookup
issued with caller identity B (B ≠ A) raises NotFound (the lookup helper
returns no row) and never returns the entity's data, leaving the store
unchanged. -/
theorem c1_cross_owner_invisible (s : DB) (hwf : s.wf) (A B : String)
    (hBA : B ≠ A) :
    (∀ r ∈ s.accounts, r.userId = A →
      getAccountForUser r.id B s = none ∧
      (∀ inp : UpdateAccountInput, inp.id = r.id →
        validUpdateAccount inp = true → ∀ now,
        updateAccount (some ⟨B⟩) inp now s =
          (.error (.notFound "Account not found."), s)) ∧
      (∀ now, archiveAccount (some ⟨B⟩) ⟨r.id⟩ now s =
        (.error (.notFound "Account not found."), s))) ∧
    (∀ r ∈ s.categories, r.userId = A →
      getCategoryForUser r.id B s = none ∧
      (∀ inp : UpdateCategoryInput, inp.id = r.id →
        validUpdateCategory inp = true → ∀ now,
        updateCategory (some ⟨B⟩) inp now s =
          (.error (.notFound "Category not found."), s)) ∧
      (∀ now, archiveCategory (some ⟨B⟩) ⟨r.id⟩ now s =
        (.error (.notFound "Category not found."), s))) ∧
    (∀ r ∈ s.transactions, r.userId = A →
      getTransactionForUser r.id B s = none ∧
      (∀ inp : UpdateTransactionInput, inp.id = r.id →
        validUpdateTransaction inp = true → ∀ now,
        updateTransaction (some ⟨B⟩) inp now s =
          (.error (.notFound "Transaction not found."), s)) ∧
      deleteTransaction (some ⟨B⟩) ⟨r.id⟩ s =
        (.error (.notFound "Transaction not found."), s)) := by
  refine ⟨?_, ?_, ?_⟩
  · intro r hr hA
    have hB : r.userId ≠ B := by rw [hA]; exact fun h => hBA h.symm
    have hlook := lookup_none_account hwf hr hB
    refine ⟨hlook, ?_, ?_⟩
    · intro inp hid hv now
      have h0 : getAccountForUser inp.id B s = none := by rw [hid]; exact hlook
      simp [updateAccount, hv, requireUser, h0]
    · intro now
      simp [archiveAccount, requireUser, hlook]
  · intro r hr hA
    have hB : r.userId ≠ B := by rw [hA]; exact fun h => hBA h.symm
    have hlook := lookup_none_category hwf hr hB
    refine ⟨hlook, ?_, ?_⟩
    · intro inp hid hv now
      have h0 : getCategoryForUser inp.id B s = none := by rw [hid]; exact hlook
      simp [updateCategory, hv, requireUser, h0]
    · intro now
      simp [archiveCategory, requireUser, hlook]
  · intro r hr hA
    have hB : r.userId ≠ B := by rw [hA]; exact fun h => hBA h.symm
    have hlook := lookup_none_transaction hwf hr hB
    refine ⟨hlook, ?_, ?_⟩
    · intro inp hid hv now
      have h0 : getTransactionForUser inp.id B s = none := by rw [hid]; exact hlook
      simp [updateTransaction, hv, requireUser, h0]
    · simp [deleteTransaction, requireUser, hlook]

/-- Claim C1 witness: in a concrete store owned by alice, caller bob gets
no row from the lookup and NotFound from the update. -/
theorem c1_witness :
    getAccountForUser sampleAccount.id "bob" sampleDB = none ∧
    updateAccount (some ⟨"bob"⟩) ⟨sampleAccount.id, none, none, none, none, none⟩
      7 sampleDB = (.error (.notFound "Account not found."), sampleDB) := by
  have h := (c1_cross_owner_invisible sampleDB (by
      refine ⟨?_, ?_, ?_⟩ <;> decide) "alice" "bob" (by decide)).1
    sampleAccount (by decide) (by decide)
  exact ⟨h.1, h.2.1 ⟨sampleAccount.id, none, none, none, none, none⟩ rfl rfl 7⟩

/-- Claim C2: for every action handler and every state, if the handler
fails (Unauthorized, NotFound, or ValidationError), the stored state is
unchanged — every failure occurs before the handler's single mutating
statement and none can occur after it. -/
theorem c2_errors_leave_state_unchanged :
    (∀ (c : Option UserCtx) (inp : CreateAccountInput) (f : String) (n : Nat) (s : DB) (e : Err),
      (createAccount c inp f n s).1 = .error e → (createAccount c inp f n s).2 = s) ∧
    (∀ (c : Option UserCtx) (inp : UpdateAccountInput) (n : Nat) (s : DB) (e : Err),
      (updateAccount c inp n s).1 = .error e → (updateAccount c inp n s).2 = s) ∧
    (∀ (c : Option UserCtx) (inp : IdInput) (n : Nat) (s : DB) (e : Err),
      (archiveAccount c inp n s).1 = .error e → (archiveAccount c inp n s).2 = s) ∧
    (∀ (c : Option UserCtx) (inp : ListArchivedInput) (s : DB) (e : Err),
      (listAccounts c inp s).1 = .error e → (listAccounts c inp s).2 = s) ∧
    (∀ (c : Option UserCtx) (inp : CreateCategoryInput) (f : String) (n : Nat) (s : DB) (e : Err),
      (createCategory c inp f n s).1 = .error e → (createCategory c inp f n s).2 = s) ∧
    (∀ (c : Option UserCtx) (inp : UpdateCategoryInput) (n : Nat) (s : DB) (e : Err),
      (updateCategory c inp n s).1 = .error e → (updateCategory c inp n s).2 = s) ∧
    (∀ (c : Option UserCtx) (inp : IdInput) (n : Nat) (s : DB) (e : Err),
      (archiveCategory c inp n s).1 = .error e → (archiveCategory c inp n s).2 = s) ∧
    (∀ (c : Option UserCtx) (inp : ListArchivedInput) (s : DB) (e : Err),
      (listCategories c inp s).1 = .error e → (listCategories c inp s).2 = s) ∧
    (∀ (c : Option UserCtx) (inp : CreateTransactionInput) (f : String) (n : Nat) (s : DB) (e : Err),
      (createTransaction c inp f n s).1 = .error e → (createTransaction c inp f n s).2 = s) ∧
    (∀ (c : Option UserCtx) (inp : UpdateTransactionInput) (n : Nat) (s : DB) (e : Err),
      (updateTransaction c inp n s).1 = .error e → (updateTransaction c inp n s).2 = s) ∧
    (∀ (c : Option UserCtx) (inp : IdInput) (s : DB) (e : Err),
      (deleteTransaction c inp s).1 = .error e → (deleteTransaction c inp s).2 = s) ∧
    (∀ (c : Option UserCtx) (inp : ListTransactionsInput) (s : DB) (e : Err),
      (listTransactions c inp s).1 = .error e → (listTransactions c inp s).2 = s) := by
  refine ⟨?_, ?_, ?_, ?_, ?_, ?_, ?_, ?_, ?_, ?_, ?_, ?_⟩
  · intro c inp f n s e h
    cases hv : validCreateAccount inp
    · simp [createAccount, hv]
    · rcases c with _ | u
      · simp [createAccount, hv, requireUser]
      · simp [createAccount, hv, requireUser] at h
  · intro c inp n s e h
    cases hv : validUpdateAccount inp
    · simp [updateAccount, hv]
    · rcases c with _ | u
      · simp [updateAccount, hv, requireUser]
      · cases hl : getAccountForUser inp.id u.id s with
        | none => simp [updateAccount, hv, requireUser, hl]
        | some r => simp [updateAccount, hv, requireUser, hl] at h
  · intro c inp n s e h
    rcases c with _ | u
    · rfl
    · cases hl : getAccountForUser inp.id u.id s with
      | none => simp [archiveAccount, requireUser, hl]
      | some r => simp [archiveAccount, requireUser, hl] at h
  · intro c inp s e h
    exact snd_listAccounts c inp s
  · intro c inp f n s e h
    cases hv : validCreateCategory inp
    · simp [createCategory, hv]
    · rcases c with _ | u
      · simp [createCategory, hv, requireUser]
      · simp [createCategory, hv, requireUser] at h
  · intro c inp n s e h
    cases hv : validUpdateCategory inp
    · simp [updateCategory, hv]
    · rcases c with _ | u
      · simp [updateCategory, hv, requireUser]
      · cases hl : getCategoryForUser inp.id u.id s with
        | none => simp [updateCategory, hv, requireUser, hl]
        | some r => simp [updateCategory, hv, requireUser, hl] at h
  · intro c inp n s e h
    rcases c with _ | u
    · rfl
    · cases hl : getCategoryForUser inp.id u.id s with
      | none => simp [archiveCategory, requireUser, hl]
      | some r => simp [archiveCategory, requireUser, hl] at h
  · intro c inp s e h
    exact snd_listCategories c inp s
  · intro c inp f n s e h
    cases hv : validCreateTransaction inp
    · simp [createTransaction, hv]
    · rcases c with _ | u
      · simp [createTransaction, hv, requireUser]
      · simp [createTransaction, hv, requireUser] at h
  · intro c inp n s e h
    cases hv : validUpdateTransaction inp
    · simp [updateTransaction, hv]
    · rcases c with _ | u
      · simp [updateTransaction, hv, requireUser]
      · cases hl : getTransactionForUser inp.id u.id s with
        | none => simp [updateTransaction, hv, requireUser, hl]
        | some r => simp [updateTransaction, hv, requireUser, hl] at h
  · intro c inp s e h
    rcases c with _ | u
    · rfl
    · cases hl : getTransactionForUser inp.id u.id s with
      | none => simp [deleteTransaction, requireUser, hl]
      | some r => simp [deleteTransaction, requireUser, hl] at h
  · intro c inp s e h
    exact snd_listTransactions c inp s

/-- Claim C2 witness: an unauthenticated update fails and leaves the
concrete store untouched. -/
theorem c2_witness :
    (updateAccount none ⟨"a1", none, none, none, none, none⟩ 3 sampleDB).2 =
      sampleDB :=
  c2_errors_leave_state_unchanged.2.1 none ⟨"a1", none, none, none, none, none⟩
    3 sampleDB (.unauthorized "You must be signed in to perform this action.") rfl

/-- Claim C3: for every existing owned row and every update input supplying
any subset of mutable fields, the persisted row after update has exactly the
supplied fields overridden plus a refreshed updatedAt; every field not
present retains its prior value; rows not matching the scoped filter are
untouched, as are the other tables; an update supplying only the id changes
only updatedAt. -/
theorem c3_update_frame :
    (∀ (u : UserCtx) (inp : UpdateAccountInput) (now : Nat) (s : DB) (r : Account),
      validUpdateAccount inp = true →
      getAccountForUser inp.id u.id s = some r →
      getAccountForUser inp.id u.id (updateAccount (some u) inp now s).2 =
        some { r with
          name := inp.name.getD r.name,
          type := nc inp.type r.type,
          currency := nc inp.currency r.currency,
          startingBalance := nc inp.startingBalance r.startingBalance,
          isArchived := inp.isArchived.getD r.isArchived,
          updatedAt := now } ∧
      (∀ a ∈ s.accounts, accountMatches inp.id u.id a = false →
        a ∈ ((updateAccount (some u) inp now s).2).accounts) ∧
      ((updateAccount (some u) inp now s).2).accounts.length = s.accounts.length ∧
      ((updateAccount (some u) inp now s).2).categories = s.categories ∧
      ((updateAccount (some u) inp now s).2).transactions = s.transactions ∧
      (inp.name = none → inp.type = none → inp.currency = none →
        inp.startingBalance = none → inp.isArchived = none →
        getAccountForUser inp.id u.id (updateAccount (some u) inp now s).2 =
          some { r with updatedAt := now })) ∧
    (∀ (u : UserCtx) (inp : UpdateCategoryInput) (now : Nat) (s : DB) (r : Category),
      validUpdateCategory inp = true →
      getCategoryForUser inp.id u.id s = some r →
      getCategoryForUser inp.id u.id (updateCategory (some u) inp now s).2 =
        some { r with
          name := inp.name.getD r.name,
          type := nc inp.type r.type,
          icon := nc inp.icon r.icon,
          parentCategoryId := nc inp.parentCategoryId r.parentCategoryId,
          sortOrder := nc inp.sortOrder r.sortOrder,
          isArchived := inp.isArchived.getD r.isArchived,
          updatedAt := now } ∧
      (∀ c ∈ s.categories, categoryMatches inp.id u.id c = false →
        c ∈ ((updateCategory (some u) inp now s).2).categories) ∧
      ((updateCategory (some u) inp now s).2).categories.length = s.categories.length ∧
      ((updateCategory (some u) inp now s).2).accounts = s.accounts ∧
      ((updateCategory (some u) inp now s).2).transactions = s.transactions ∧
      (inp.name = none → inp.type = none → inp.icon = none →
        inp.parentCategoryId = none → inp.sortOrder = none → inp.isArchived = none →
        getCategoryForUser inp.id u.id (updateCategory (some u) inp now s).2 =
          some { r with updatedAt := now })) ∧
    (∀ (u : UserCtx) (inp : UpdateTransactionInput) (now : Nat) (s : DB) (r : Transaction),
      validUpdateTransaction inp = true →
      getTransactionForUser inp.id u.id s = some r →
      getTransactionForUser inp.id u.id (updateTransaction (some u) inp now s).2 =
        some { r with
          accountId := nc inp.accountId r.accountId,
          categoryId := nc inp.categoryId r.categoryId,
          type := inp.type.getD r.type,
          amount := inp.amount.getD r.amount,
          currency := nc inp.currency r.currency,
          transactionDate := inp.transactionDate.getD r.transactionDate,
          description := nc inp.description r.description,
          transferAccountId := nc inp.transferAccountId r.transferAccountId,
          updatedAt := now } ∧
      (∀ t ∈ s.transactions, transactionMatches inp.id u.id t = false →
        t ∈ ((updateTransaction (some u) inp now s).2).transactions) ∧
      ((updateTransaction (some u) inp now s).2).transactions.length = s.transactions.length ∧
      ((updateTransaction (some u) inp now s).2).accounts = s.accounts ∧
      ((updateTransaction (some u) inp now s).2).categories = s.categories ∧
      (inp.accountId = none → inp.categoryId = none → inp.type = none →
        inp.amount = none → inp.currency = none → inp.transactionDate = none →
        inp.description = none → inp.transferAccountId = none →
        getTransactionForUser inp.id u.id (updateTransaction (some u) inp now s).2 =
          some { r with updatedAt := now })) := by
  refine ⟨?_, ?_, ?_⟩
  · intro u inp now s r hv hr
    have hg : ∀ a, accountMatches inp.id u.id a = true →
        accountMatches inp.id u.id (applyAccountSet r inp now a) = true :=
      fun a ha => by rw [accountMatches_applyAccountSet]; exact ha
    have hstep : (updateAccount (some u) inp now s).2 =
        { s with accounts := s.accounts.map fun a =>
            if accountMatches inp.id u.id a then applyAccountSet r inp now a else a } := by
      simp [updateAccount, hv, requireUser, hr]
    refine ⟨?_, ?_, ?_, ?_, ?_, ?_⟩
    · rw [hstep, getAccountForUser_map_if inp.id u.id (applyAccountSet r inp now) hg s, hr]
      rfl
    · intro a ha hpa
      rw [hstep]
      exact mem_map_if_of_neg ha hpa
    · rw [hstep]; simp
    · rw [hstep]
    · rw [hstep]
    · intro h1 h2 h3 h4 h5
      rw [hstep, getAccountForUser_map_if inp.id u.id (applyAccountSet r inp now) hg s, hr]
      simp [applyAccountSet, h1, h2, h3, h4, h5, nc]
  · intro u inp now s r hv hr
    have hg : ∀ c, categoryMatches inp.id u.id c = true →
        categoryMatches inp.id u.id (applyCategorySet r inp now c) = true :=
      fun c hc => by rw [categoryMatches_applyCategorySet]; exact hc
    have hstep : (updateCategory (some u) inp now s).2 =
        { s with categories := s.categories.map fun c =>
            if categoryMatches inp.id u.id c then applyCategorySet r inp now c else c } := by
      simp [updateCategory, hv, requireUser, hr]
    refine ⟨?_, ?_, ?_, ?_, ?_, ?_⟩
    · rw [hstep, getCategoryForUser_map_if inp.id u.id (applyCategorySet r inp now) hg s, hr]
      rfl
    · intro c hc hpc
      rw [hstep]
      exact mem_map_if_of_neg hc hpc
    · rw [hstep]; simp
    · rw [hstep]
    · rw [hstep]
    · intro h1 h2 h3 h4 h5 h6
      rw [hstep, getCategoryForUser_map_if inp.id u.id (applyCategorySet r inp now) hg s, hr]
      simp [applyCategorySet, h1, h2, h3, h4, h5, h6, nc]
  · intro u inp now s r hv hr
    have hg : ∀ t, transactionMatches inp.id u.id t = true →
        transactionMatches inp.id u.id (applyTransactionSet r inp now t) = true :=
      fun t ht => by rw [transactionMatches_applyTransactionSet]; exact ht
    have hstep : (updateTransaction (some u) inp now s).2 =
        { s with transactions := s.transactions.map fun t =>
            if transactionMatches inp.id u.id t then applyTransactionSet r inp now t else t } := by
      simp [updateTransaction, hv, requireUser, hr]
    refine ⟨?_, ?_, ?_, ?_, ?_, ?_⟩
    · rw [hstep, getTransactionForUser_map_if inp.id u.id (applyTransactionSet r inp now) hg s, hr]
      rfl
    · intro t ht hpt
      rw [hstep]
      exact mem_map_if_of_neg ht hpt
    · rw [hstep]; simp
    · rw [hstep]
    · rw [hstep]
    · intro h1 h2 h3 h4 h5 h6 h7 h8
      rw [hstep, getTransactionForUser_map_if inp.id u.id (applyTransactionSet r inp now) hg s, hr]
      simp [applyTransactionSet, h1, h2, h3, h4, h5, h6, h7, h8, nc]

/-- Claim C3 witness: a concrete update supplying only `name` persists
exactly that field plus updatedAt; a concrete id-only update changes only
updatedAt. -/
theorem c3_witness :
    getAccountForUser "a1" "alice"
      (updateAccount (some ⟨"alice"⟩) ⟨"a1", some "Wallet", none, none, none, none⟩
        9 sampleDB).2 = some { sampleAccount with name := "Wallet", updatedAt := 9 } ∧
    getAccountForUser "a1" "alice"
      (updateAccount (some ⟨"alice"⟩) ⟨"a1", none, none, none, none, none⟩
        9 sampleDB).2 = some { sampleAccount with updatedAt := 9 } := by
  constructor
  · exact (c3_update_frame.1 ⟨"alice"⟩ ⟨"a1", some "Wallet", none, none, none, none⟩
      9 sampleDB sampleAccount rfl (by decide)).1
  · exact (c3_update_frame.1 ⟨"alice"⟩ ⟨"a1", none, none, none, none, none⟩
      9 sampleDB sampleAccount rfl (by decide)).2.2.2.2.2 rfl rfl rfl rfl rfl

/-- Claim C4 counterexample: archiving is reversible through the exposed
surface.  In a concrete store whose account (and category) row is archived,
a single exposed `updateAccount` (resp. `updateCategory`) supplying
`isArchived: false` leaves the row un-archived, refuting the claim that no
sequence of exposed actions ever clears `isArchived`. -/
theorem c4_counterexample :
    archAcct ∈ archDB.accounts ∧ archAcct.isArchived = true ∧
    getAccountForUser "a1" "alice"
      (runActs [Act.updateAccount (some ⟨"alice"⟩)
        ⟨"a1", none, none, none, none, some false⟩ 1] archDB) =
      some { archAcct with isArchived := false, updatedAt := 1 } ∧
    archCat ∈ archDB.categories ∧ archCat.isArchived = true ∧
    getCategoryForUser "c1" "alice"
      (runActs [Act.updateCategory (some ⟨"alice"⟩)
        ⟨"c1", none, none, none, none, none, some false⟩ 1] archDB) =
      some { archCat with isArchived := false, updatedAt := 1 } :=
  ⟨by decide, rfl, rfl, by decide, rfl, rfl⟩

/-- Claim C4 amended: archiving is not irreversible — `updateAccount` and
`updateCategory` expose an optional `isArchived` field, and an update
supplying `isArchived: false` un-archives the row (see the counterexample).
What does hold: along any sequence of exposed actions in which no update
targeting the row's id supplies `isArchived: false` (and no create reuses
that id), every row under that id stays archived — in particular the archive
actions themselves and updates omitting `isArchived` never clear the flag. -/
theorem c4_archived_stays_archived (i : String) (acts : List Act) :
    ((∀ a ∈ acts, actOkA i a) → ∀ s, archInvA i s → archInvA i (runActs acts s)) ∧
    ((∀ a ∈ acts, actOkC i a) → ∀ s, archInvC i s → archInvC i (runActs acts s)) := by
  induction acts with
  | nil => exact ⟨fun _ s h => h, fun _ s h => h⟩
  | cons a t ih =>
    constructor
    · intro hok s hinv
      exact ih.1 (fun b hb => hok b (List.mem_cons_of_mem a hb)) (stepAct a s)
        (stepAct_archInvA (hok a (List.mem_cons_self a t)) hinv)
    · intro hok s hinv
      exact ih.2 (fun b hb => hok b (List.mem_cons_of_mem a hb)) (stepAct a s)
        (stepAct_archInvC (hok a (List.mem_cons_self a t)) hinv)

/-- Claim C4 amended witness: archiving an archived account again, then
updating it without touching `isArchived`, leaves it archived. -/
theorem c4_witness :
    archInvA "a1"
      (runActs [Act.archiveAccount (some ⟨"alice"⟩) ⟨"a1"⟩ 2,
                Act.updateAccount (some ⟨"alice"⟩)
                  ⟨"a1", some "Spare", none, none, none, none⟩ 3] archDB) :=
  (c4_archived_stays_archived "a1"
      [Act.archiveAccount (some ⟨"alice"⟩) ⟨"a1"⟩ 2,
       Act.updateAccount (some ⟨"alice"⟩)
         ⟨"a1", some "Spare", none, none, none, none⟩ 3]).1
    (by
      intro a ha
      rcases List.mem_cons.1 ha with h | h
      · subst h; trivial
      · rcases List.mem_cons.1 h with h2 | h2
        · subst h2
          intro _ hfalse
          cases hfalse
        · cases h2)
    archDB
    (by
      intro a ha hid
      rcases List.mem_cons.1 ha with h | h
      · subst h; rfl
      · cases h)

/-- Claim C5: for every owner and stored state, `listAccounts` and
`listCategories` with includeArchived=false return exactly the caller's
non-archived rows (never an archived one), and with includeArchived=true
return all of the caller's rows, archived or not. -/
theorem c5_list_archived_filter :
    ∀ (u : UserCtx) (s : DB),
    (∃ items, (listAccounts (some u) ⟨false⟩ s).1 = .ok ⟨items, items.length⟩ ∧
      ∀ a, a ∈ items ↔ a ∈ s.accounts ∧ a.userId = u.id ∧ a.isArchived = false) ∧
    (∃ items, (listAccounts (some u) ⟨true⟩ s).1 = .ok ⟨items, items.length⟩ ∧
      ∀ a, a ∈ items ↔ a ∈ s.accounts ∧ a.userId = u.id) ∧
    (∃ items, (listCategories (some u) ⟨false⟩ s).1 = .ok ⟨items, items.length⟩ ∧
      ∀ c, c ∈ items ↔ c ∈ s.categories ∧ c.userId = u.id ∧ c.isArchived = false) ∧
    (∃ items, (listCategories (some u) ⟨true⟩ s).1 = .ok ⟨items, items.length⟩ ∧
      ∀ c, c ∈ items ↔ c ∈ s.categories ∧ c.userId = u.id) := by
  intro u s
  refine ⟨⟨_, rfl, ?_⟩, ⟨_, rfl, ?_⟩, ⟨_, rfl, ?_⟩, ⟨_, rfl, ?_⟩⟩ <;> intro x <;>
    simp [List.mem_filter, and_assoc]

/-- Claim C6: `listTransactions` returns the rows matching the conjunction
of ownerId and each provided filter, limited to pageSize at offset
(page−1)×pageSize, echoes page and pageSize, and its `total` equals the
length of the returned page; `total` in `listAccounts` and `listCategories`
likewise equals the returned item count, not the overall matching count (a
concrete store shows total = 1 while 2 rows match). -/
theorem c6_pagination_and_total :
    (∀ (u : UserCtx) (inp : ListTransactionsInput) (s : DB),
      1 ≤ inp.page → 1 ≤ inp.pageSize →
      ∃ items,
        (listTransactions (some u) inp s).1 =
          .ok { items := items, total := items.length,
                page := inp.page, pageSize := inp.pageSize } ∧
        items = ((s.transactions.filter (txnMatchesSpec u.id inp)).drop
          ((inp.page - 1) * inp.pageSize)).take inp.pageSize) ∧
    (∀ (u : UserCtx) (b : Bool) (s : DB) (out : ListOut Account),
      (listAccounts (some u) ⟨b⟩ s).1 = .ok out → out.total = out.items.length) ∧
    (∀ (u : UserCtx) (b : Bool) (s : DB) (out : ListOut Category),
      (listCategories (some u) ⟨b⟩ s).1 = .ok out → out.total = out.items.length) ∧
    ((listTransactions (some ⟨"alice"⟩) ⟨none, none, none, 1, 1⟩ twoTxnDB).1 =
        .ok ⟨[txnA], 1, 1, 1⟩ ∧
      (twoTxnDB.transactions.filter
        (txnMatchesSpec "alice" ⟨none, none, none, 1, 1⟩)).length = 2) := by
  refine ⟨?_, ?_, ?_, rfl, rfl⟩
  · intro u inp s hp hps
    have hv : validListTransactions inp = true := by
      simp [validListTransactions, hp, hps]
    refine ⟨_, ?_, rfl⟩
    cases hA : strTruthy inp.accountId <;> cases hCid : strTruthy inp.categoryId <;>
      rcases hT : inp.type with _ | ty <;>
      simp [listTransactions, hv, requireUser, hA, hCid, hT]
    · rw [List.filter_congr (fun t _ => by
        simp [txnMatchesSpec, hA, hCid, hT] :
          ∀ t ∈ s.transactions, txnMatchesSpec u.id inp t =
            (fun t : Transaction => t.userId == u.id) t)]
      exact ⟨rfl, rfl⟩
    · rw [List.filter_congr (fun t _ => by
        simp [txnMatchesSpec, hA, hCid, hT] :
          ∀ t ∈ s.transactions, txnMatchesSpec u.id inp t =
            (fun t : Transaction => t.userId == u.id && decide (t.type = ty)) t)]
      exact ⟨rfl, rfl⟩
    · rw [List.filter_congr (fun t _ => by
        simp [txnMatchesSpec, hA, hCid, hT] :
          ∀ t ∈ s.transactions, txnMatchesSpec u.id inp t =
            (fun t : Transaction => t.userId == u.id && t.categoryId == inp.categoryId) t)]
      exact ⟨rfl, rfl⟩
    · rw [List.filter_congr (fun t _ => by
        simp [txnMatchesSpec, hA, hCid, hT] :
          ∀ t ∈ s.transactions, txnMatchesSpec u.id inp t =
            (fun t : Transaction => t.userId == u.id &&
              (t.categoryId == inp.categoryId && decide (t.type = ty))) t)]
      exact ⟨rfl, rfl⟩
    · rw [List.filter_congr (fun t _ => by
        simp [txnMatchesSpec, hA, hCid, hT] :
          ∀ t ∈ s.transactions, txnMatchesSpec u.id inp t =
            (fun t : Transaction => t.userId == u.id && t.accountId == inp.accountId) t)]
      exact ⟨rfl, rfl⟩
    · rw [List.filter_congr (fun t _ => by
        simp [txnMatchesSpec, hA, hCid, hT] :
          ∀ t ∈ s.transactions, txnMatchesSpec u.id inp t =
            (fun t : Transaction => t.userId == u.id &&
              (t.accountId == inp.accountId && decide (t.type = ty))) t)]
      exact ⟨rfl, rfl⟩
    · rw [List.filter_congr (fun t _ => by
        simp [txnMatchesSpec, hA, hCid, hT] :
          ∀ t ∈ s.transactions, txnMatchesSpec u.id inp t =
            (fun t : Transaction => t.userId == u.id &&
              (t.accountId == inp.accountId && t.categoryId == inp.categoryId)) t)]
      exact ⟨rfl, rfl⟩
    · rw [List.filter_congr (fun t _ => by
        simp [txnMatchesSpec, hA, hCid, hT] :
          ∀ t ∈ s.transactions, txnMatchesSpec u.id inp t =
            (fun t : Transaction => t.userId == u.id &&
              (t.accountId == inp.accountId &&
                (t.categoryId == inp.categoryId && decide (t.type = ty)))) t)]
      exact ⟨rfl, rfl⟩
  · intro u b s out h
    simp only [listAccounts, requireUser, Except.ok.injEq] at h
    rw [← h]
  · intro u b s out h
    simp only [listCategories, requireUser, Except.ok.injEq] at h
    rw [← h]

/-- Claim C6 witness: page 2 of size 1 over two owned transactions returns
the second row with total echoing the page length. -/
theorem c6_witness :
    ∃ items,
      (listTransactions (some ⟨"alice"⟩) ⟨none, none, none, 2, 1⟩ twoTxnDB).1 =
        .ok { items := items, total := items.length, page := 2, pageSize := 1 } ∧
      items = ((twoTxnDB.transactions.filter
        (txnMatchesSpec "alice" ⟨none, none, none, 2, 1⟩)).drop ((2 - 1) * 1)).take 1 :=
  c6_pagination_and_total.1 ⟨"alice"⟩ ⟨none, none, none, 2, 1⟩ twoTxnDB
    (by decide) (by decide)

/-- Claim C7: an input with amount ≤ 0 is rejected with ValidationError by
createTransaction and updateTransaction before any handler logic (even
before the auth check), leaving the store unchanged; whenever a create
succeeds, the stored amount is strictly positive, and whenever an update
supplying amount succeeds, that amount is strictly positive and is the one
persisted. -/
theorem c7_amount_positive :
    (∀ (c : Option UserCtx) (inp : CreateTransactionInput) (f : String) (n : Nat) (s : DB),
      inp.amount ≤ 0 →
      createTransaction c inp f n s = (.error .validationError, s)) ∧
    (∀ (c : Option UserCtx) (inp : UpdateTransactionInput) (n : Nat) (s : DB) (a : Int),
      inp.amount = some a → a ≤ 0 →
      updateTransaction c inp n s = (.error .validationError, s)) ∧
    (∀ (c : Option UserCtx) (inp : CreateTransactionInput) (f : String) (n : Nat) (s : DB)
      (t : Transaction) (s₂ : DB),
      createTransaction c inp f n s = (.ok t, s₂) → 0 < t.amount) ∧
    (∀ (c : Option UserCtx) (inp : UpdateTransactionInput) (n : Nat) (s : DB)
      (t : Transaction) (s₂ : DB) (a : Int),
      updateTransaction c inp n s = (.ok t, s₂) → inp.amount = some a →
      0 < a ∧ t.amount = a) := by
  refine ⟨?_, ?_, ?_, ?_⟩
  · intro c inp f n s h
    have hv : validCreateTransaction inp = false := by
      simp [validCreateTransaction]
      omega
    simp [createTransaction, hv]
  · intro c inp n s a ha h
    have hv : validUpdateTransaction inp = false := by
      simp [validUpdateTransaction, ha]
      omega
    simp [updateTransaction, hv]
  · intro c inp f n s t s₂ h
    cases hv : validCreateTransaction inp
    · simp [createTransaction, hv] at h
    · rcases c with _ | u
      · simp [createTransaction, hv, requireUser] at h
      · have hva : (0 : Int) < inp.amount := by
          simpa [validCreateTransaction] using hv
        simp [createTransaction, hv, requireUser, Prod.mk.injEq] at h
        rw [← h.1]
        simpa using hva
  · intro c inp n s t s₂ a h ha
    have hpos : (0 : Int) < a := by
      cases hv : validUpdateTransaction inp
      · simp [updateTransaction, hv] at h
      · simpa [validUpdateTransaction, ha] using hv
    refine ⟨hpos, ?_⟩
    cases hv : validUpdateTransaction inp
    · simp [updateTransaction, hv] at h
    · rcases c with _ | u
      · simp [updateTransaction, hv, requireUser] at h
      · cases hl : getTransactionForUser inp.id u.id s with
        | none => simp [updateTransaction, hv, requireUser, hl] at h
        | some r =>
          simp [updateTransaction, hv, requireUser, hl, Prod.mk.injEq] at h
          rw [← h.1]
          simp [spreadTransaction, ha]

/-- Claim C7 witness: a concrete create with amount −3 fails validation and
leaves the store unchanged. -/
theorem c7_witness :
    createTransaction (some ⟨"alice"⟩)
      ⟨none, none, .expense, -3, none, none, none, none⟩ "t9" 5 sampleDB =
      (.error .validationError, sampleDB) :=
  c7_amount_positive.1 (some ⟨"alice"⟩)
    ⟨none, none, .expense, -3, none, none, none, none⟩ "t9" 5 sampleDB (by decide)

/-- Claim C8: for every owned Account or Category, archive sets
isArchived=true and refreshes updatedAt (also when the row was already
archived — the lookup does not exclude archived rows, so it succeeds), and
archiving twice yields the same archived state as archiving once at the
later clock reading. -/
theorem c8_archive_idempotent :
    (∀ (u : UserCtx) (i : String) (now now₂ : Nat) (s : DB) (r : Account),
      getAccountForUser i u.id s = some r →
      (archiveAccount (some u) ⟨i⟩ now s).1 =
        .ok { r with isArchived := true, updatedAt := now } ∧
      getAccountForUser i u.id (archiveAccount (some u) ⟨i⟩ now s).2 =
        some { r with isArchived := true, updatedAt := now } ∧
      (archiveAccount (some u) ⟨i⟩ now₂ (archiveAccount (some u) ⟨i⟩ now s).2).2 =
        (archiveAccount (some u) ⟨i⟩ now₂ s).2) ∧
    (∀ (u : UserCtx) (i : String) (now now₂ : Nat) (s : DB) (r : Category),
      getCategoryForUser i u.id s = some r →
      (archiveCategory (some u) ⟨i⟩ now s).1 =
        .ok { r with isArchived := true, updatedAt := now } ∧
      getCategoryForUser i u.id (archiveCategory (some u) ⟨i⟩ now s).2 =
        some { r with isArchived := true, updatedAt := now } ∧
      (archiveCategory (some u) ⟨i⟩ now₂ (archiveCategory (some u) ⟨i⟩ now s).2).2 =
        (archiveCategory (some u) ⟨i⟩ now₂ s).2) := by
  constructor
  · intro u i now now₂ s r hr
    have hg : ∀ a, accountMatches i u.id a = true →
        accountMatches i u.id { a with isArchived := true, updatedAt := now } = true :=
      fun a ha => by rw [accountMatches_archiveSet]; exact ha
    have hstep : (archiveAccount (some u) ⟨i⟩ now s).2 =
        { s with accounts := s.accounts.map fun a =>
            if accountMatches i u.id a then
              { a with isArchived := true, updatedAt := now } else a } := by
      simp [archiveAccount, requireUser, hr]
    have hr₂ : getAccountForUser i u.id (archiveAccount (some u) ⟨i⟩ now s).2 =
        some { r with isArchived := true, updatedAt := now } := by
      rw [hstep, getAccountForUser_map_if i u.id _ hg s, hr]
      rfl
    refine ⟨?_, hr₂, ?_⟩
    · simp [archiveAccount, requireUser, hr]
    · rw [hstep] at hr₂
      rw [hstep]
      have h₂ : (archiveAccount (some u) ⟨i⟩ now₂
          { s with accounts := s.accounts.map fun a =>
              if accountMatches i u.id a then
                { a with isArchived := true, updatedAt := now } else a }).2 =
          { s with accounts := (s.accounts.map fun a =>
              if accountMatches i u.id a then
                { a with isArchived := true, updatedAt := now } else a).map fun a =>
              if accountMatches i u.id a then
                { a with isArchived := true, updatedAt := now₂ } else a } := by
        simp [archiveAccount, requireUser, hr₂]
      have h₃ : (archiveAccount (some u) ⟨i⟩ now₂ s).2 =
          { s with accounts := s.accounts.map fun a =>
              if accountMatches i u.id a then
                { a with isArchived := true, updatedAt := now₂ } else a } := by
        simp [archiveAccount, requireUser, hr]
      rw [h₂, h₃]
      congr 1
      rw [List.map_map]
      apply List.map_congr_left
      intro a _
      by_cases hp : accountMatches i u.id a = true
      · simp [Function.comp, hp, hg a hp]
      · simp [Function.comp, hp]
  · intro u i now now₂ s r hr
    have hg : ∀ c, categoryMatches i u.id c = true →
        categoryMatches i u.id { c with isArchived := true, updatedAt := now } = true :=
      fun c hc => by rw [categoryMatches_archiveSet]; exact hc
    have hstep : (archiveCategory (some u) ⟨i⟩ now s).2 =
        { s with categories := s.categories.map fun c =>
            if categoryMatches i u.id c then
              { c with isArchived := true, updatedAt := now } else c } := by
      simp [archiveCategory, requireUser, hr]
    have hr₂ : getCategoryForUser i u.id (archiveCategory (some u) ⟨i⟩ now s).2 =
        some { r with isArchived := true, updatedAt := now } := by
      rw [hstep, getCategoryForUser_map_if i u.id _ hg s, hr]
      rfl
    refine ⟨?_, hr₂, ?_⟩
    · simp [archiveCategory, requireUser, hr]
    · rw [hstep] at hr₂
      rw [hstep]
      have h₂ : (archiveCategory (some u) ⟨i⟩ now₂
          { s with categories := s.categories.map fun c =>
              if categoryMatches i u.id c then
                { c with isArchived := true, updatedAt := now } else c }).2 =
          { s with categories := (s.categories.map fun c =>
              if categoryMatches i u.id c then
                { c with isArchived := true, updatedAt := now } else c).map fun c =>
              if categoryMatches i u.id c then
                { c with isArchived := true, updatedAt := now₂ } else c } := by
        simp [archiveCategory, requireUser, hr₂]
      have h₃ : (archiveCategory (some u) ⟨i⟩ now₂ s).2 =
          { s with categories := s.categories.map fun c =>
              if categoryMatches i u.id c then
                { c with isArchived := true, updatedAt := now₂ } else c } := by
        simp [archiveCategory, requireUser, hr]
      rw [h₂, h₃]
      congr 1
      rw [List.map_map]
      apply List.map_congr_left
      intro c _
      by_cases hp : categoryMatches i u.id c = true
      · simp [Function.comp, hp, hg c hp]
      · simp [Function.comp, hp]

/-- Claim C8 witness: archiving an already-archived concrete account
succeeds, and archiving twice equals archiving once at the later clock. -/
theorem c8_witness :
    (archiveAccount (some ⟨"alice"⟩) ⟨"a1"⟩ 2 archDB).1 =
      .ok { archAcct with isArchived := true, updatedAt := 2 } ∧
    (archiveAccount (some ⟨"alice"⟩) ⟨"a1"⟩ 3
        (archiveAccount (some ⟨"alice"⟩) ⟨"a1"⟩ 2 archDB).2).2 =
      (archiveAccount (some ⟨"alice"⟩) ⟨"a1"⟩ 3 archDB).2 := by
  have h := c8_archive_idempotent.1 ⟨"alice"⟩ "a1" 2 3 archDB archAcct (by decide)
  exact ⟨h.1, h.2.2⟩

/-- Claim C9: for every successful update of an Account, Category, or
Transaction, the data object returned in the response envelope (the spread
merge of the prior row with the input plus the new updatedAt) equals the row
actually persisted by the scoped update statement (the field-by-field
nullish coalesce of input over the prior row plus the new updatedAt). -/
theorem c9_response_equals_persisted :
    (∀ (u : UserCtx) (inp : UpdateAccountInput) (now : Nat) (s : DB)
      (out : Account) (s₂ : DB),
      updateAccount (some u) inp now s = (.ok out, s₂) →
      getAccountForUser inp.id u.id s₂ = some out) ∧
    (∀ (u : UserCtx) (inp : UpdateCategoryInput) (now : Nat) (s : DB)
      (out : Category) (s₂ : DB),
      updateCategory (some u) inp now s = (.ok out, s₂) →
      getCategoryForUser inp.id u.id s₂ = some out) ∧
    (∀ (u : UserCtx) (inp : UpdateTransactionInput) (now : Nat) (s : DB)
      (out : Transaction) (s₂ : DB),
      updateTransaction (some u) inp now s = (.ok out, s₂) →
      getTransactionForUser inp.id u.id s₂ = some out) := by
  refine ⟨?_, ?_, ?_⟩
  · intro u inp now s out s₂ h
    cases hv : validUpdateAccount inp
    · simp [updateAccount, hv] at h
    · cases hl : getAccountForUser inp.id u.id s with
      | none => simp [updateAccount, hv, requireUser, hl] at h
      | some r =>
        simp only [updateAccount, hv, Bool.not_true, Bool.false_eq_true, if_false,
          requireUser, hl, Prod.mk.injEq, Except.ok.injEq] at h
        obtain ⟨h1, h2⟩ := h
        subst h2
        subst h1
        have hg : ∀ a, accountMatches inp.id u.id a = true →
            accountMatches inp.id u.id (applyAccountSet r inp now a) = true :=
          fun a ha => by rw [accountMatches_applyAccountSet]; exact ha
        rw [getAccountForUser_map_if inp.id u.id (applyAccountSet r inp now) hg s, hl]
        have hid : r.id = inp.id := by
          rcases head?_filter_eq_some hl with ⟨hmem, hp⟩
          simp only [accountMatches, Bool.and_eq_true, beq_iff_eq] at hp
          exact hp.1
        simp [applyAccountSet, spreadAccount, hid]
  · intro u inp now s out s₂ h
    cases hv : validUpdateCategory inp
    · simp [updateCategory, hv] at h
    · cases hl : getCategoryForUser inp.id u.id s with
      | none => simp [updateCategory, hv, requireUser, hl] at h
      | some r =>
        simp only [updateCategory, hv, Bool.not_true, Bool.false_eq_true, if_false,
          requireUser, hl, Prod.mk.injEq, Except.ok.injEq] at h
        obtain ⟨h1, h2⟩ := h
        subst h2
        subst h1
        have hg : ∀ c, categoryMatches inp.id u.id c = true →
            categoryMatches inp.id u.id (applyCategorySet r inp now c) = true :=
          fun c hc => by rw [categoryMatches_applyCategorySet]; exact hc
        rw [getCategoryForUser_map_if inp.id u.id (applyCategorySet r inp now) hg s, hl]
        have hid : r.id = inp.id := by
          rcases head?_filter_eq_some hl with ⟨hmem, hp⟩
          simp only [categoryMatches, Bool.and_eq_true, beq_iff_eq] at hp
          exact hp.1
        simp [applyCategorySet, spreadCategory, hid]
  · intro u inp now s out s₂ h
    cases hv : validUpdateTransaction inp
    · simp [updateTransaction, hv] at h
    · cases hl : getTransactionForUser inp.id u.id s with
      | none => simp [updateTransaction, hv, requireUser, hl] at h
      | some r =>
        simp only [updateTransaction, hv, Bool.not_true, Bool.false_eq_true, if_false,
          requireUser, hl, Prod.mk.injEq, Except.ok.injEq] at h
        obtain ⟨h1, h2⟩ := h
        subst h2
        subst h1
        have hg : ∀ t, transactionMatches inp.id u.id t = true →
            transactionMatches inp.id u.id (applyTransactionSet r inp now t) = true :=
          fun t ht => by rw [transactionMatches_applyTransactionSet]; exact ht
        rw [getTransactionForUser_map_if inp.id u.id (applyTransactionSet r inp now) hg s, hl]
        have hid : r.id = inp.id := by
          rcases head?_filter_eq_some hl with ⟨hmem, hp⟩
          simp only [transactionMatches, Bool.and_eq_true, beq_iff_eq] at hp
          exact hp.1
        simp [applyTransactionSet, spreadTransaction, hid]

/-- Claim C9 witness: for a concrete successful update, the returned row is
the row the store then holds. -/
theorem c9_witness :
    getAccountForUser "a1" "alice"
      (updateAccount (some ⟨"alice"⟩) ⟨"a1", some "Bank", none, none, none, none⟩
        4 sampleDB).2 =
      some (spreadAccount sampleAccount ⟨"a1", some "Bank", none, none, none, none⟩ 4) :=
  c9_response_equals_persisted.1 ⟨"alice"⟩ ⟨"a1", some "Bank", none, none, none, none⟩
    4 sampleDB (spreadAccount sampleAccount ⟨"a1", some "Bank", none, none, none, none⟩ 4)
    (updateAccount (some ⟨"alice"⟩) ⟨"a1", some "Bank", none, none, none, none⟩ 4 sampleDB).2
    rfl

/-- Claim C10: `listTransactions` treats an accountId or categoryId supplied
as the empty string exactly like an absent filter: the result is identical
to the call omitting that filter (the source's truthiness check skips empty
strings). -/
theorem c10_empty_string_filter_ignored :
    ∀ (c : Option UserCtx) (inp : ListTransactionsInput) (s : DB),
      listTransactions c { inp with accountId := some "" } s =
        listTransactions c { inp with accountId := none } s ∧
      listTransactions c { inp with categoryId := some "" } s =
        listTransactions c { inp with categoryId := none } s := by
  intro c inp s
  exact ⟨rfl, rfl⟩
